import Mathlib

/-!
Verification of the two-axis rotational dynamics sanity-check script
`check_dynamics.py`: a classical RK4 integrator factory, Newtonian and
Hamiltonian dynamics functions, an Euler-discretized linear model, and a
five-iteration driver loop.  State vectors are modelled as 4-tuples of
rationals (exact arithmetic), controls as pairs of rationals.
-/

/-- A 4-component state vector, as used for every model in the script. -/
@[ext] structure Vec4 where
  c1 : ℚ
  c2 : ℚ
  c3 : ℚ
  c4 : ℚ
  deriving DecidableEq

instance : Add Vec4 :=
  ⟨fun a b => ⟨a.c1 + b.c1, a.c2 + b.c2, a.c3 + b.c3, a.c4 + b.c4⟩⟩

instance : HMul ℚ Vec4 Vec4 :=
  ⟨fun r a => ⟨r * a.c1, r * a.c2, r * a.c3, r * a.c4⟩⟩

instance : HDiv Vec4 ℚ Vec4 :=
  ⟨fun a r => ⟨a.c1 / r, a.c2 / r, a.c3 / r, a.c4 / r⟩⟩

@[simp] theorem Vec4.add_def (a b : Vec4) :
    a + b = ⟨a.c1 + b.c1, a.c2 + b.c2, a.c3 + b.c3, a.c4 + b.c4⟩ := rfl

@[simp] theorem Vec4.hmul_def (r : ℚ) (a : Vec4) :
    r * a = ⟨r * a.c1, r * a.c2, r * a.c3, r * a.c4⟩ := rfl

@[simp] theorem Vec4.hdiv_def (a : Vec4) (r : ℚ) :
    a / r = ⟨a.c1 / r, a.c2 / r, a.c3 / r, a.c4 / r⟩ := rfl

/-- View of a state vector as a function on `Fin 4`, for matrix products. -/
def Vec4.toFun (a : Vec4) : Fin 4 → ℚ := ![a.c1, a.c2, a.c3, a.c4]

/-- Rebuild a state vector from a function on `Fin 4`. -/
def Vec4.ofFun (g : Fin 4 → ℚ) : Vec4 := ⟨g 0, g 1, g 2, g 3⟩

/-- RK4 integrator factory, from `discretize_dynamics_rk4` in the script.
The returned step function takes its own `dt` argument, shadowing the
constructor's `dt`, exactly as in the source. -/
def discretize_dynamics_rk4 (f : Vec4 → ℚ × ℚ → Vec4) (dt : ℚ) :
    Vec4 → ℚ × ℚ → ℚ → Vec4 :=
  fun state control dt =>
    let k1 := dt * f state control
    let k2 := dt * f (state + k1 / (2 : ℚ)) control
    let k3 := dt * f (state + k2 / (2 : ℚ)) control
    let k4 := dt * f (state + k3) control
    state + (k1 + (2 : ℚ) * k2 + (2 : ℚ) * k3 + k4) / (6 : ℚ)

/-- Newtonian dynamics from the script: `(th1d, th2d, T1/Ix, T2/Iy)`
with `Ix = Iy = 2`. -/
def newtonian_dynamics (state : Vec4) (control : ℚ × ℚ) : Vec4 :=
  let Ix : ℚ := 2
  let Iy : ℚ := 2
  ⟨state.c3, state.c4, control.1 / Ix, control.2 / Iy⟩

/-- Hamiltonian dynamics from the script: `(p1/Ix, p2/Iy, T1, T2)`
with `Ix = Iy = 2`. -/
def hamiltonian_dynamics (state : Vec4) (control : ℚ × ℚ) : Vec4 :=
  let Ix : ℚ := 2
  let Iy : ℚ := 2
  ⟨state.c3 / Ix, state.c4 / Iy, control.1, control.2⟩

/-- Euler-discretized linear model from the script: the constant pair of
matrices `(A, B)` built from `dt` and `Ix = Iy = 2`. -/
def linear_dynamics (dt : ℚ) :
    Matrix (Fin 4) (Fin 4) ℚ × Matrix (Fin 4) (Fin 2) ℚ :=
  let Ix : ℚ := 2
  let Iy : ℚ := 2
  (!![1, 0, dt, 0; 0, 1, 0, dt; 0, 0, 1, 0; 0, 0, 0, 1],
   !![0, 0; 0, 0; dt / Ix, 0; 0, dt / Iy])

/-- One iteration of the linear model from the driver loop:
`A @ state + B @ control`. -/
def linear_step (dt : ℚ) (state : Vec4) (control : ℚ × ℚ) : Vec4 :=
  Vec4.ofFun ((linear_dynamics dt).1.mulVec state.toFun +
    (linear_dynamics dt).2.mulVec ![control.1, control.2])

/-- State after `n` RK4 steps of dynamics `f` from `x0` under control `u`
with step size `dt` (constructor and call-time `dt` coincide, as in the
driver). -/
def rk4Path (f : Vec4 → ℚ × ℚ → Vec4) (x0 : Vec4) (u : ℚ × ℚ) (dt : ℚ) :
    ℕ → Vec4
  | 0 => x0
  | n + 1 => discretize_dynamics_rk4 f dt (rk4Path f x0 u dt n) u dt

/-- The momentum scaling map relating Newtonian and Hamiltonian states:
angles unchanged, rates multiplied by the inertias `Ix = Iy = 2`. -/
def scaleState (s : Vec4) : Vec4 := ⟨s.c1, s.c2, 2 * s.c3, 2 * s.c4⟩

/-- Driver constant `Ix` from the main block. -/
def driver_Ix : ℚ := 2

/-- Driver constant `Iy` from the main block. -/
def driver_Iy : ℚ := 2

/-- Driver initial rate `dth1_0 = 0.15`. -/
def dth1_0 : ℚ := 15 / 100

/-- Driver initial rate `dth2_0 = -0.15`. -/
def dth2_0 : ℚ := -(15 / 100)

/-- Driver initial momentum `p1_0 = dth1_0 * Ix`. -/
def p1_0 : ℚ := dth1_0 * driver_Ix

/-- Driver initial momentum `p2_0 = dth2_0 * Iy`. -/
def p2_0 : ℚ := dth2_0 * driver_Iy

/-- Driver step size `dt = 0.001`. -/
def driver_dt : ℚ := 1 / 1000

/-- Driver constant control `(0.5, 0.5)`. -/
def driver_control : ℚ × ℚ := (1 / 2, 1 / 2)

/-- Driver initial Newtonian state `n_x0`. -/
def n_x0 : Vec4 := ⟨0, 0, dth1_0, dth2_0⟩

/-- Driver initial Hamiltonian state `h_x0`. -/
def h_x0 : Vec4 := ⟨0, 0, p1_0, p2_0⟩

/-- Driver initial linear-model state `L_x0`. -/
def L_x0 : Vec4 := ⟨0, 0, dth1_0, dth2_0⟩

/-- Driver Hamiltonian step function `ham_dyns`. -/
def ham_dyns : Vec4 → ℚ × ℚ → ℚ → Vec4 :=
  discretize_dynamics_rk4 hamiltonian_dynamics driver_dt

/-- Driver Newtonian step function `newt_dyns`. -/
def newt_dyns : Vec4 → ℚ × ℚ → ℚ → Vec4 :=
  discretize_dynamics_rk4 newtonian_dynamics driver_dt

/-- Hamiltonian state after `n` driver iterations. -/
def hamPath : ℕ → Vec4
  | 0 => h_x0
  | n + 1 => ham_dyns (hamPath n) driver_control driver_dt

/-- Newtonian state after `n` driver iterations. -/
def newtPath : ℕ → Vec4
  | 0 => n_x0
  | n + 1 => newt_dyns (newtPath n) driver_control driver_dt

/-- Linear-model state after `n` driver iterations. -/
def linPath : ℕ → Vec4
  | 0 => L_x0
  | n + 1 => linear_step driver_dt (linPath n) driver_control

/-- The vectors printed by the driver, in order: the initial linear state
before the loop, then the final Hamiltonian, Newtonian and linear states
after the five iterations. -/
def driverOutput : List Vec4 := [L_x0, hamPath 5, newtPath 5, linPath 5]

/-- One RK4 step of the Hamiltonian dynamics applied to a scaled state equals
the scaled RK4 step of the Newtonian dynamics: the scaling map intertwines the
two dynamics and RK4 is linear in the derivative samples. -/
theorem ham_step_scaleState (x : Vec4) (u : ℚ × ℚ) (dt0 dt : ℚ) :
    discretize_dynamics_rk4 hamiltonian_dynamics dt0 (scaleState x) u dt =
      scaleState (discretize_dynamics_rk4 newtonian_dynamics dt0 x u dt) := by
  simp only [discretize_dynamics_rk4, hamiltonian_dynamics, newtonian_dynamics,
    scaleState, Vec4.add_def, Vec4.hmul_def, Vec4.hdiv_def]
  ext <;> dsimp <;> ring

/-- C1: if the Hamiltonian RK4 path starts from the Newtonian start with rates
scaled by the inertias, then after every number of steps, under any control and
step size, angle components coincide and momentum components are the inertias
(2) times the Newtonian rate components. -/
theorem C1_hamiltonian_newtonian_scaling (x0 : Vec4) (u : ℚ × ℚ) (dt : ℚ) (n : ℕ) :
    (rk4Path hamiltonian_dynamics (scaleState x0) u dt n).c1 =
        (rk4Path newtonian_dynamics x0 u dt n).c1 ∧
    (rk4Path hamiltonian_dynamics (scaleState x0) u dt n).c2 =
        (rk4Path newtonian_dynamics x0 u dt n).c2 ∧
    (rk4Path hamiltonian_dynamics (scaleState x0) u dt n).c3 =
        2 * (rk4Path newtonian_dynamics x0 u dt n).c3 ∧
    (rk4Path hamiltonian_dynamics (scaleState x0) u dt n).c4 =
        2 * (rk4Path newtonian_dynamics x0 u dt n).c4 := by
  have key : rk4Path hamiltonian_dynamics (scaleState x0) u dt n =
      scaleState (rk4Path newtonian_dynamics x0 u dt n) := by
    induction n with
    | zero => rfl
    | succ n ih => rw [rk4Path, rk4Path, ih, ham_step_scaleState]
  rw [key]
  exact ⟨rfl, rfl, rfl, rfl⟩

/-- C2: the step function returned by the RK4 factory computes
`state + (k1 + 2*k2 + 2*k3 + k4)/6` from the four staged applications of `f`,
for every dynamics `f`, state, control and call-time `dt`. -/
theorem C2_rk4_step_formula (f : Vec4 → ℚ × ℚ → Vec4) (dt0 : ℚ) (state : Vec4)
    (control : ℚ × ℚ) (dt : ℚ) :
    discretize_dynamics_rk4 f dt0 state control dt =
      (let k1 := dt * f state control
       let k2 := dt * f (state + k1 / (2 : ℚ)) control
       let k3 := dt * f (state + k2 / (2 : ℚ)) control
       let k4 := dt * f (state + k3) control
       state + (k1 + (2 : ℚ) * k2 + (2 : ℚ) * k3 + k4) / (6 : ℚ)) := rfl

/-- C3: the Newtonian dynamics returns exactly `(th1d, th2d, T1/Ix, T2/Iy)`
with `Ix = Iy = 2`, as a pure function of its arguments. -/
theorem C3_newtonian_dynamics_formula (th1 th2 th1d th2d T1 T2 : ℚ) :
    newtonian_dynamics ⟨th1, th2, th1d, th2d⟩ (T1, T2) =
      ⟨th1d, th2d, T1 / 2, T2 / 2⟩ := rfl

/-- C4: the Hamiltonian dynamics returns exactly `(p1/Ix, p2/Iy, T1, T2)`
with `Ix = Iy = 2`, as a pure function of its arguments. -/
theorem C4_hamiltonian_dynamics_formula (q1 q2 p1 p2 T1 T2 : ℚ) :
    hamiltonian_dynamics ⟨q1, q2, p1, p2⟩ (T1, T2) =
      ⟨p1 / 2, p2 / 2, T1, T2⟩ := rfl

/-- C5: for every `dt`, the linear model builder returns exactly the stated
pair of matrices, depending on nothing but `dt` and the inertia constants. -/
theorem C5_linear_dynamics_matrices (dt : ℚ) :
    linear_dynamics dt =
      (!![1, 0, dt, 0; 0, 1, 0, dt; 0, 0, 1, 0; 0, 0, 0, 1],
       !![0, 0; 0, 0; dt / 2, 0; 0, dt / 2]) := rfl

/-- C6: the driver sets up the three state vectors from matched initial
conditions (angles 0, rates 0.15 and -0.15, momenta = rate times inertia),
uses control (0.5, 0.5) and dt = 0.001, advances the Hamiltonian and Newtonian
states by one RK4 step and the linear state by one application of
A @ state + B @ control per iteration, and its output is the initial linear
state followed by the three states after exactly 5 iterations. -/
theorem C6_driver_behavior :
    h_x0 = ⟨0, 0, (15 / 100 : ℚ) * 2, (-(15 / 100) : ℚ) * 2⟩ ∧
    n_x0 = ⟨0, 0, 15 / 100, -(15 / 100)⟩ ∧
    L_x0 = ⟨0, 0, 15 / 100, -(15 / 100)⟩ ∧
    driver_control = (1 / 2, 1 / 2) ∧
    driver_dt = 1 / 1000 ∧
    (∀ n, hamPath (n + 1) =
      discretize_dynamics_rk4 hamiltonian_dynamics driver_dt (hamPath n)
        driver_control driver_dt) ∧
    (∀ n, newtPath (n + 1) =
      discretize_dynamics_rk4 newtonian_dynamics driver_dt (newtPath n)
        driver_control driver_dt) ∧
    (∀ n, linPath (n + 1) =
      Vec4.ofFun ((linear_dynamics driver_dt).1.mulVec (linPath n).toFun +
        (linear_dynamics driver_dt).2.mulVec
          ![driver_control.1, driver_control.2])) ∧
    driverOutput = [L_x0, hamPath 5, newtPath 5, linPath 5] :=
  ⟨rfl, rfl, rfl, rfl, rfl, fun _ => rfl, fun _ => rfl, fun _ => rfl, rfl⟩

/-- C7: the step function returned by the factory uses only the call-time dt,
never the constructor dt, and its result does vary with the call-time dt. -/
theorem C7_call_time_dt :
    (∀ (f : Vec4 → ℚ × ℚ → Vec4) (dt1 dt2 : ℚ) (state : Vec4)
        (control : ℚ × ℚ) (dt : ℚ),
        discretize_dynamics_rk4 f dt1 state control dt =
          discretize_dynamics_rk4 f dt2 state control dt) ∧
    (discretize_dynamics_rk4 newtonian_dynamics driver_dt n_x0 driver_control 1).c3 <
      (discretize_dynamics_rk4 newtonian_dynamics driver_dt n_x0 driver_control 2).c3 := by
  constructor
  · intro f dt1 dt2 state control dt
    rfl
  · norm_num [discretize_dynamics_rk4, newtonian_dynamics, n_x0,
      driver_control, dth1_0, dth2_0]

/-- C8: after the 5 driver RK4 steps the Newtonian state is exactly
(241/320000, -239/320000, 121/800, -119/800): the rates are exactly the
initial rates plus (T/I) * 5 * dt, i.e. 0.15125 and -0.14875, and each angle
is the corresponding initial rate times 5 * dt plus a torque contribution of
magnitude at most 1/100000, hence approximately 0.00075 and -0.00075. -/
theorem C8_newtonian_after_five_steps :
    newtPath 5 = ⟨241 / 320000, -(239 / 320000), 121 / 800, -(119 / 800)⟩ ∧
    (121 / 800 : ℚ) = dth1_0 + driver_control.1 / 2 * (5 * driver_dt) ∧
    (-(119 / 800) : ℚ) = dth2_0 + driver_control.2 / 2 * (5 * driver_dt) ∧
    |(241 / 320000 : ℚ) - dth1_0 * (5 * driver_dt)| ≤ 1 / 100000 ∧
    |(-(239 / 320000) : ℚ) - dth2_0 * (5 * driver_dt)| ≤ 1 / 100000 := by
  refine ⟨?_, ?_, ?_, ?_, ?_⟩
  · norm_num [newtPath, newt_dyns, discretize_dynamics_rk4, newtonian_dynamics,
      n_x0, dth1_0, dth2_0, driver_dt, driver_control]
  · norm_num [dth1_0, driver_control, driver_dt]
  · norm_num [dth2_0, driver_control, driver_dt]
  · rw [abs_le]
    constructor <;> norm_num [dth1_0, driver_dt]
  · rw [abs_le]
    constructor <;> norm_num [dth2_0, driver_dt]

/-- The rate components of one RK4 step of the Newtonian dynamics. -/
theorem newt_rk4_rate_step (state : Vec4) (control : ℚ × ℚ) (dt0 dt : ℚ) :
    (discretize_dynamics_rk4 newtonian_dynamics dt0 state control dt).c3 =
        state.c3 + dt * control.1 / 2 ∧
    (discretize_dynamics_rk4 newtonian_dynamics dt0 state control dt).c4 =
        state.c4 + dt * control.2 / 2 := by
  constructor <;>
    · simp only [discretize_dynamics_rk4, newtonian_dynamics, Vec4.add_def,
        Vec4.hmul_def, Vec4.hdiv_def]
      ring

/-- The rate components of one Euler step of the linear model. -/
theorem linear_step_rate (state : Vec4) (control : ℚ × ℚ) (dt : ℚ) :
    (linear_step dt state control).c3 = state.c3 + dt * control.1 / 2 ∧
    (linear_step dt state control).c4 = state.c4 + dt * control.2 / 2 := by
  constructor <;>
    · simp [linear_step, linear_dynamics, Vec4.ofFun, Vec4.toFun,
        Matrix.mulVec, Matrix.dotProduct, Fin.sum_univ_four, Fin.sum_univ_two]
      ring

/-- C10: components 3 and 4 of one Newtonian RK4 step are exactly
state + dt * T / I, identical to the linear model's Euler step on those
components, and consequently the driver's Newtonian and linear paths agree
exactly on the rate components at every iteration. -/
theorem C10_rate_components_agree :
    (∀ (state : Vec4) (control : ℚ × ℚ) (dt : ℚ),
        (discretize_dynamics_rk4 newtonian_dynamics dt state control dt).c3 =
            state.c3 + dt * control.1 / 2 ∧
        (discretize_dynamics_rk4 newtonian_dynamics dt state control dt).c4 =
            state.c4 + dt * control.2 / 2 ∧
        (linear_step dt state control).c3 = state.c3 + dt * control.1 / 2 ∧
        (linear_step dt state control).c4 = state.c4 + dt * control.2 / 2) ∧
    ∀ n : ℕ, (newtPath n).c3 = (linPath n).c3 ∧ (newtPath n).c4 = (linPath n).c4 := by
  constructor
  · intro state control dt
    exact ⟨(newt_rk4_rate_step state control dt dt).1,
      (newt_rk4_rate_step state control dt dt).2,
      (linear_step_rate state control dt).1,
      (linear_step_rate state control dt).2⟩
  · intro n
    induction n with
    | zero => exact ⟨rfl, rfl⟩
    | succ n ih =>
      refine ⟨?_, ?_⟩
      · rw [newtPath, linPath, newt_dyns,
          (newt_rk4_rate_step (newtPath n) driver_control driver_dt driver_dt).1,
          (linear_step_rate (linPath n) driver_control driver_dt).1, ih.1]
      · rw [newtPath, linPath, newt_dyns,
          (newt_rk4_rate_step (newtPath n) driver_control driver_dt driver_dt).2,
          (linear_step_rate (linPath n) driver_control driver_dt).2, ih.2]
